import Mathlib

/- Verification of the serial-protocol client `CharaDevice`
   (src/python/serial_interface.py) against its design specification.

   Modelling conventions:
   * Python strings are `String` / `List Char`; Python integers are `Int`
     (or `Nat` where the source value is a count or an index).
   * `int(s)` and `int(s, 16)` are modelled by `pyInt10` / `pyInt16`,
     covering optional surrounding ASCII whitespace, an optional sign, the
     optional "0x"/"0X" mark in base 16, and single underscores between
     digits (PEP 515); non-ASCII digits are out of scope.
   * The serial transport is modelled by passing the device's reply line
     explicitly (`none` = read timeout), or, for `_read_line` itself, by a
     tick-indexed byte stream `List (Option Char)` where entry `t` is the
     byte available at poll iteration `t` (the source sleeps 0.001 s per
     iteration, so a Python timeout of `t` seconds is `1000 * t` ticks).
   * Exceptions are modelled with `Option`: a `none` result of `pyInt10`,
     `pyInt16` or `sendCommand` marks a raised `ValueError`/`IndexError`.
-/

/-- Python `str.strip()` whitespace predicate (ASCII subset). -/
def isPySpace (c : Char) : Bool :=
  c = ' ' || c = '\t' || c = '\n' || c = '\r' || c = '\x0b' || c = '\x0c'

/-- Python `str.strip()`: drop whitespace from both ends. -/
def pyStrip (cs : List Char) : List Char :=
  ((cs.dropWhile isPySpace).reverse.dropWhile isPySpace).reverse

/-- Decimal digit value of a character, if any. -/
def decDigitVal (c : Char) : Option Nat :=
  if '0' ≤ c ∧ c ≤ '9' then some (c.toNat - '0'.toNat) else none

/-- Hexadecimal digit value of a character, if any. -/
def hexDigitVal (c : Char) : Option Nat :=
  if '0' ≤ c ∧ c ≤ '9' then some (c.toNat - '0'.toNat)
  else if 'a' ≤ c ∧ c ≤ 'f' then some (c.toNat - 'a'.toNat + 10)
  else if 'A' ≤ c ∧ c ≤ 'F' then some (c.toNat - 'A'.toNat + 10)
  else none

/-- Digit run of a Python integer literal: at least one digit, single
    underscores allowed between digits.  `lastDigit` records whether the
    previous character was a digit (so an underscore is legal now). -/
def digitsGo (dv : Char → Option Nat) (base : Nat) :
    List Char → Nat → Bool → Option Nat
  | [], acc, lastDigit => if lastDigit then some acc else none
  | c :: cs, acc, lastDigit =>
    match dv c with
    | some d => digitsGo dv base cs (acc * base + d) true
    | none =>
      if c == '_' && lastDigit then digitsGo dv base cs acc false else none

/-- Python `int(s, base)` for base 10/16: strip whitespace, optional sign,
    optional "0x" mark (base 16 only, possibly followed by one underscore),
    then a digit run.  `none` models a raised `ValueError`. -/
def pyIntCore (dv : Char → Option Nat) (base : Nat) (allowHexMark : Bool)
    (cs : List Char) : Option Int :=
  let cs1 := pyStrip cs
  let neg := cs1.headD ' ' == '-'
  let cs2 := if cs1.headD ' ' == '-' || cs1.headD ' ' == '+' then cs1.tail else cs1
  let marked := allowHexMark && (cs2.headD ' ' == '0') &&
      (cs2.tail.headD ' ' == 'x' || cs2.tail.headD ' ' == 'X')
  let body :=
    if marked then
      (if cs2.tail.tail.headD ' ' == '_' then cs2.tail.tail.tail else cs2.tail.tail)
    else cs2
  (digitsGo dv base body 0 false).map
    (fun n => if neg then -(n : Int) else (n : Int))

/-- Python `int(s)` (base 10). -/
def pyInt10 (s : String) : Option Int := pyIntCore decDigitVal 10 false s.toList

/-- Python `int(s, 16)`. -/
def pyInt16 (s : String) : Option Int := pyIntCore hexDigitVal 16 true s.toList

/-- Python `str.split(sep)` for a single-character separator: split at every
    occurrence, keeping empty fragments; the result is never empty. -/
def splitChar (sep : Char) : List Char → List (List Char)
  | [] => [[]]
  | c :: cs =>
    let r := splitChar sep cs
    if c = sep then [] :: r
    else
      match r with
      | [] => [[c]]
      | g :: gs => (c :: g) :: gs

/-- Model of `response.split(' ')` on a `String`, as a list of `String` tokens. -/
def pySplitSpace (s : String) : List String :=
  (splitChar ' ' s.toList).map (fun g => String.mk g)

/-- Hex digit character, uppercase (as produced by Python `f"{n:X}"`). -/
def hexDigitChar (d : Nat) : Char :=
  if d < 10 then Char.ofNat ('0'.toNat + d) else Char.ofNat ('A'.toNat + d - 10)

/-- Fuel-driven worker for `natToHexDigits`; the fuel is a strict upper
    bound on the value, so it never runs out. -/
def natToHexAux : Nat → Nat → List Char
  | 0, _ => []
  | fuel + 1, n =>
    if n < 16 then [hexDigitChar n]
    else natToHexAux fuel (n / 16) ++ [hexDigitChar (n % 16)]

/-- Python `f"{n:X}"` for a natural `n`: uppercase hex digits, no mark,
    no leading zeros (and "0" for zero). -/
def natToHexDigits (n : Nat) : List Char := natToHexAux (n + 1) n

/-- Python `f"{n:X}"` as a `String`. -/
def natToHexStr (n : Nat) : String := String.mk (natToHexDigits n)

/- ===== Transport / line reader (`CharaDevice._read_line`) =====
   `stream` lists the byte available at each poll iteration (`none`: no byte
   waiting); `fuel` is the number of poll iterations before the timeout
   elapses.  The accumulation buffer `buf` is not cleared when a blank line
   is skipped, exactly as in the source. -/

def readLineGo : Nat → List (Option Char) → List Char → Option String
  | 0, _, _ => none
  | _ + 1, [], _ => none
  | fuel + 1, ev :: rest, buf =>
    match ev with
    | none => readLineGo fuel rest buf
    | some c =>
      if c = '\n' then
        if pyStrip buf ≠ [] then some (String.mk (pyStrip buf))
        else readLineGo fuel rest buf
      else if c = '\r' then readLineGo fuel rest buf
      else readLineGo fuel rest (buf ++ [c])

/-- Model of `CharaDevice._read_line(timeout)`: poll for bytes until a line-feed
    completes a non-blank line, or the timeout (in ticks) elapses. -/
def read_line (stream : List (Option Char)) (fuel : Nat) : Option String :=
  readLineGo fuel stream []

/- ===== Protocol engine (`CharaDevice.send_command`) ===== -/

/-- Model of `CharaDevice.send_command` for a non-empty command part list
    `c0 :: rest`, as a function of the single reply line (`none` = the
    read timed out).  The source's `elif response.startswith("UKN")` branch
    only logs; both it and the final fall-through return `[]`. -/
def sendCommandOk (c0 : String) (rest : List String) (reply : Option String) :
    List String :=
  match reply with
  | none => []
  | some response =>
    let parts := pySplitSpace response
    if parts.headD "" = c0 then
      if rest ≠ [] ∧ 2 ≤ parts.length then
        if parts.getD 1 "" = rest.headD "" then parts.drop 2 else []
      else parts.drop 1
    else if "UKN".toList.isPrefixOf response.toList then [] else []

/-- Model of `CharaDevice.send_command` on an arbitrary command part list; `none`
    models the `IndexError` raised by `command_parts[0]` when the list is
    empty and a reply line arrived (on a timeout the source returns `[]`
    before indexing). -/
def send_command (commandParts : List String) (reply : Option String) :
    Option (List String) :=
  match commandParts with
  | [] =>
    match reply with
    | none => some []
    | some _ => none
  | c0 :: rest => some (sendCommandOk c0 rest reply)

/- ===== Capability resolver (`CharaDevice._version_gte`, `CharaDevice.init`) ===== -/

/-- Model of `int(current[i]) if i < len(current) else 0` for one component list. -/
def versionComp (groups : List (List Char)) (i : Nat) : Option Int :=
  if h : i < groups.length then pyIntCore decDigitVal 10 false (groups.get ⟨i, h⟩)
  else some 0

/-- One iteration of the `for i in range(3)` loop of `_version_gte`:
    parse both components (`none` = `ValueError` escaping to the bare
    `except`), return on a strict comparison, fall through to `next` on a
    tie.  Laziness matches the source: when iteration `i` decides, later
    components are never parsed. -/
def vgStep (c t : Option Int) (next : Option Bool) : Option Bool :=
  match c, t with
  | some c, some t =>
    if c > t then some true
    else if c < t then some false
    else next
  | _, _ => none

/-- Model of `version.split('-')[0]`: the part of a version string before the first
    "-" (the whole string when there is none). -/
def preDash (s : String) : List Char := (splitChar '-' s.toList).headD []

/-- Model of `version.split('-')[0].split('.')`: the dot-separated components of the
    pre-release-free part of a version string. -/
def versionComps (s : String) : List (List Char) := splitChar '.' (preDash s)

/-- Component `i` of a version string as `_version_gte` reads it. -/
def vcomp (s : String) (i : Nat) : Option Int := versionComp (versionComps s) i

/-- Model of `CharaDevice._version_gte` on an actual version string: split on "-",
    keep the prefix, split it on ".", compare up to 3 components (the
    `range(3)` loop unrolled), return `true` on full tie; any exception
    yields `false`. -/
def version_gte (current targetVersion : String) : Bool :=
  let cur := versionComps current
  let tgt := versionComps targetVersion
  (vgStep (versionComp cur 0) (versionComp tgt 0)
    (vgStep (versionComp cur 1) (versionComp tgt 1)
      (vgStep (versionComp cur 2) (versionComp tgt 2) (some true)))).getD false

/-- Model of `_version_gte` as called on `self.version` (an optional field):
    `self.version.split` on `None` raises `AttributeError`, which the bare
    `except` turns into `false`. -/
def versionGteM (version : Option String) (target : String) : Bool :=
  match version with
  | none => false
  | some v => version_gte v target

/-- Python truthiness of the optional `self.version` string (`None` and
    `""` are falsy). -/
def versionTruthy (version : Option String) : Bool :=
  match version with
  | none => false
  | some v => v ≠ ""

/-- The mutable fields of a `CharaDevice` session set in `__init__` and
    `init` (transport handle aside). -/
structure DeviceState where
  version : Option String
  company : Option String
  device : Option String
  chipset : Option String
  key_count : Option Int
  layer_count : Int
  profile_count : Int
deriving DecidableEq, Repr

/-- The field values established by `CharaDevice.__init__`. -/
def initialState : DeviceState :=
  { version := none, company := none, device := none, chipset := none,
    key_count := none, layer_count := 3, profile_count := 1 }

/-- The `key_counts` dictionary of `CharaDevice.init`. -/
def keyCountTable : List (String × Int) :=
  [("ONE", 90), ("TWO", 90), ("LITE", 67), ("X", 256),
   ("ENGINE", 256), ("M4G", 90), ("M4GR", 90), ("T4G", 7), ("ZERO", 256)]

/-- Model of `CharaDevice.init`, as a function of the session state and the two
    reply lines for `VERSION` and `ID` (`none` = read timeout).  The
    `except` branch that makes `init` return `False` fires only on a
    transport exception, which the reply-level model does not produce, so
    the boolean result of every modelled run is the source's `return True`. -/
def init (st : DeviceState) (vReply idReply : Option String) :
    Bool × DeviceState :=
  let vresp := sendCommandOk "VERSION" [] vReply
  let st1 :=
    if vresp ≠ [] then { st with version := some (String.intercalate " " vresp) }
    else st
  let idresp := sendCommandOk "ID" [] idReply
  if idresp ≠ [] ∧ 3 ≤ idresp.length then
    let device := idresp.getD 1 ""
    let chipset := idresp.getD 2 ""
    let st2 := { st1 with
      company := some (idresp.headD ""), device := some device,
      chipset := some chipset,
      key_count := some ((keyCountTable.lookup device).getD 90) }
    let st3 :=
      if versionTruthy st2.version ∧ versionGteM st2.version "2.2.0-beta.4" then
        { st2 with profile_count := if chipset = "M0" then 2 else 3 }
      else st2
    let st4 :=
      if versionTruthy st3.version ∧ versionGteM st3.version "2.2.0-beta.20" then
        { st3 with layer_count := if chipset = "M0" then 3 else 4 }
      else st3
    (true, st4)
  else (true, st1)

/- ===== Query facade (`CharaDevice.get_setting`, `CharaDevice.query_key`) ===== -/

/-- Model of `CharaDevice.get_setting(profile, setting_id)` as a function of the
    reply line: command `VAR B1 <hex of setting_id + profile*0x100>`,
    success requires two payload tokens with status token "0". -/
def get_setting (profile settingId : Nat) (reply : Option String) : Option Int :=
  let resp := sendCommandOk "VAR" ["B1", natToHexStr (settingId + profile * 256)] reply
  if resp ≠ [] ∧ 2 ≤ resp.length then
    if resp.getD 1 "" = "0" then pyInt10 (resp.headD "")
    else none
  else none

/-- The `10.0`-second fallback `_read_line` timeout used by `query_key`,
    in poll ticks (0.001 s per tick). -/
def indefiniteWaitTicks : Nat := 10000

/-- Model of `CharaDevice.query_key(timeout)` as a function of the byte stream that
    follows the `QRY KEY` request.  `timeout` is in poll ticks; the source
    computes the line-read bound as `timeout if timeout else 10.0`, so both
    `None` and a zero timeout fall back to the 10-second bound. -/
def query_key (timeout : Option Nat) (stream : List (Option Char)) : Option Int :=
  let fuel :=
    match timeout with
    | none => indefiniteWaitTicks
    | some t => if t = 0 then indefiniteWaitTicks else t
  match read_line stream fuel with
  | none => none
  | some response =>
    let parts := pySplitSpace response
    if 3 ≤ parts.length ∧ parts.headD "" = "QRY" ∧ parts.getD 1 "" = "KEY" then
      pyInt10 (parts.getD 2 "")
    else none

/- ===== Chord codec (`CharaDevice._parse_chord_actions`, `_parse_phrase`) ===== -/

/-- One 10-bit field of the packed action word:
    `(value >> (i * 10)) & 0x3FF` with Python semantics (arithmetic shift,
    two's-complement masking), i.e. floor division then Euclidean mod. -/
def chordField (value : Int) (i : Nat) : Int :=
  value.fdiv ((2 : Int) ^ (i * 10)) % 1024

/-- Model of `CharaDevice._parse_chord_actions`: parse the hex word, collect the
    nonzero 10-bit fields from the least significant end, then reverse into
    program order; a `ValueError` from `int` yields `[]`. -/
def parse_chord_actions (hexStr : String) : List Int :=
  match pyInt16 hexStr with
  | none => []
  | some value =>
    (((List.range 12).map fun i => chordField value i).filter
      (fun a => a ≠ 0)).reverse

/-- Reference encoder for the test-only round trip (modelled from the
    spec: each action code occupies a 10-bit field, the fields hold the
    program-order list reversed, starting from the least-significant bits,
    and the word is rendered with `f"{n:X}"`). -/
def valLSB (r : List Nat) : Nat :=
  r.foldr (fun b acc => b + 1024 * acc) 0

/-- The packed word: program-order list reversed, least-significant field
    first. -/
def packActionsN (l : List Nat) : Nat := valLSB l.reverse

/-- Reference encoder, rendered as the hex string put on the wire. -/
def encode_actions (l : List Nat) : String := natToHexStr (packActionsN l)

/-- One candidate parse window of `_parse_phrase`:
    `int(hex_str[i:i+w], 16)` guarded by `i + w <= len(hex_str)`. -/
def tryWindow (cs : List Char) (i w : Nat) : Option Int :=
  if i + w ≤ cs.length then pyIntCore hexDigitVal 16 true ((cs.drop i).take w)
  else none

/-- The `while i < len(hex_str)` loop of `CharaDevice._parse_phrase`; the
    cursor `i` advances by at least one per iteration, so `cs.length` poll
    steps of fuel always suffice. -/
def parsePhraseLoop (cs : List Char) : Nat → Nat → List Int
  | 0, _ => []
  | fuel + 1, i =>
    if i < cs.length then
      match tryWindow cs i 4 with
      | some v => v :: parsePhraseLoop cs fuel (i + 4)
      | none =>
        match tryWindow cs i 3 with
        | some v => v :: parsePhraseLoop cs fuel (i + 3)
        | none =>
          match tryWindow cs i 2 with
          | some v => v :: parsePhraseLoop cs fuel (i + 2)
          | none => parsePhraseLoop cs fuel (i + 1)
    else []

/-- Model of `CharaDevice._parse_phrase`. -/
def parse_phrase (s : String) : List Int :=
  parsePhraseLoop s.toList s.toList.length 0

/-- A parse window at the head of the remaining input, as the spec words
    it ("attempt to parse a 4-hex-digit token, else 3, else 2"). -/
def specWindow (cs : List Char) (w : Nat) : Option Int :=
  if w ≤ cs.length then pyIntCore hexDigitVal 16 true (cs.take w) else none

/-- Phrase decoder modelled from the spec sentence for `decode_phrase`:
    left-to-right scan, fixed 4 → 3 → 2 priority, accept the first window
    that parses and advance by its width, else advance one character. -/
def specDecodePhrase : List Char → List Int
  | [] => []
  | c :: rest =>
    match specWindow (c :: rest) 4 with
    | some v => v :: specDecodePhrase (rest.drop 3)
    | none =>
      match specWindow (c :: rest) 3 with
      | some v => v :: specDecodePhrase (rest.drop 2)
      | none =>
        match specWindow (c :: rest) 2 with
        | some v => v :: specDecodePhrase (rest.drop 1)
        | none => specDecodePhrase rest
termination_by cs => cs.length
decreasing_by
  all_goals simp [List.length_drop]
  all_goals omega

/-- Validation of `send_command` replies as the (amended) spec words it: the
    reply's leading token must echo the command's first part, and, for a
    command of two or more parts, its second token must echo the second
    part; on a match the tokens after the echoed ones are returned,
    otherwise the result is empty. -/
def specSendResult (c0 : String) (rest : List String) (reply : String) :
    List String :=
  let parts := pySplitSpace reply
  match rest with
  | [] => if parts.headD "" = c0 then parts.drop 1 else []
  | c1 :: _ =>
    if parts.headD "" = c0 ∧ 2 ≤ parts.length ∧ parts.getD 1 "" = c1 then
      parts.drop 2
    else []

/-- An unsigned hexadecimal numeral, as claim C9 words the parse step of
    `decode_actions` ("parses it as an unsigned hex integer"): one or more
    hex digits and nothing else. -/
def specUnsignedHex (s : String) : Option Nat :=
  if s.toList ≠ [] ∧ s.toList.all (fun c => (hexDigitVal c).isSome) then
    some (s.toList.foldl (fun a c => a * 16 + (hexDigitVal c).getD 0) 0)
  else none

/-- Lexicographic greater-or-equal on three numeric components, as the
    spec words the comparison ("compare up to 3 numeric components left to
    right; equal versions compare as true"). -/
def lexGe3 (x0 x1 x2 y0 y1 y2 : Int) : Bool :=
  if x0 > y0 then true else if x0 < y0 then false
  else if x1 > y1 then true else if x1 < y1 then false
  else if x2 > y2 then true else if x2 < y2 then false
  else true

/-- The ID-derived quadruple (company, device, chipset, key_count) is
    set all-or-none. -/
def quadSync (st : DeviceState) : Prop :=
  st.company.isSome = st.device.isSome ∧
  st.company.isSome = st.chipset.isSome ∧
  st.company.isSome = st.key_count.isSome

/-- Stream for the claim C4 run: no byte is waiting during the first
    10 seconds (10000 poll ticks) after `QRY KEY` is sent, then the
    response line `QRY KEY 5` arrives. -/
def lateLineStream : List (Option Char) :=
  List.replicate indefiniteWaitTicks none ++ "QRY KEY 5\r\n".toList.map some

theorem natToHexAux_fuel : ∀ n f1 f2, n < f1 → n < f2 →
    natToHexAux f1 n = natToHexAux f2 n := by
  intro n
  induction n using Nat.strong_induction_on with
  | _ n ih =>
    intro f1 f2 h1 h2
    match f1, f2 with
    | g1 + 1, g2 + 1 =>
      by_cases h16 : n < 16
      · simp [natToHexAux, h16]
      · have hdiv : n / 16 < n := Nat.div_lt_self (by omega) (by omega)
        simp only [natToHexAux, if_neg h16]
        rw [ih (n / 16) hdiv g1 g2 (by omega) (by omega)]

/-- Defining equation of `natToHexDigits`. -/
theorem natToHexDigits_eq (n : Nat) :
    natToHexDigits n =
      if n < 16 then [hexDigitChar n]
      else natToHexDigits (n / 16) ++ [hexDigitChar (n % 16)] := by
  by_cases h16 : n < 16
  · simp [natToHexDigits, natToHexAux, h16]
  · have hdiv : n / 16 < n := Nat.div_lt_self (by omega) (by omega)
    conv_lhs => rw [natToHexDigits]
    simp only [natToHexAux, if_neg h16]
    rw [natToHexAux_fuel (n / 16) n (n / 16 + 1) (by omega) (by omega)]
    rfl

/- ===== Basic facts about the splitter ===== -/

theorem splitChar_ne_nil (sep : Char) : ∀ cs, splitChar sep cs ≠ [] := by
  intro cs
  induction cs with
  | nil => simp [splitChar]
  | cons c cs ih =>
    simp only [splitChar]
    by_cases h : c = sep
    · simp [h]
    · simp only [if_neg h]
      cases hr : splitChar sep cs with
      | nil => simp
      | cons g gs => simp

theorem pySplitSpace_ne_nil (s : String) : pySplitSpace s ≠ [] := by
  simp [pySplitSpace, splitChar_ne_nil]

/- ===== Claim C5: send_command reply validation ===== -/

/-- Claim C5 counterexample: the claim demands the empty sequence for every
    reply that starts with "UKN", but a reply `UKN 1` to the (pathological)
    command `["UKN"]` passes the echo check first and yields `["1"]`. -/
theorem c5_counterexample : send_command ["UKN"] (some "UKN 1") = some ["1"] := by
  decide

/-- Claim C5 (amended): for every non-empty command part list, `send_command`
    never raises and returns exactly the tokens after the echoed prefix when
    the reply's leading token (one-part command) or leading two tokens
    (longer command) echo the command, and the empty sequence otherwise; a
    reply starting with "UKN" is empty-result only because it fails that
    echo match, e.g. reply `VERSION 2.2.0-beta.20` to `["VERSION"]` yields
    `["2.2.0-beta.20"]` and reply `UKN` yields `[]`. -/
theorem c5_send_command_validation (c0 : String) (rest : List String)
    (reply : String) :
    send_command (c0 :: rest) (some reply) =
      some (specSendResult c0 rest reply) ∧
    send_command ["VERSION"] (some "VERSION 2.2.0-beta.20") =
      some ["2.2.0-beta.20"] ∧
    send_command ["VERSION"] (some "UKN") = some [] := by
  refine ⟨?_, by decide, by decide⟩
  show some (sendCommandOk c0 rest (some reply)) = _
  have hne : pySplitSpace reply ≠ [] := pySplitSpace_ne_nil reply
  unfold sendCommandOk specSendResult
  cases hp : pySplitSpace reply with
  | nil => exact absurd hp hne
  | cons a t =>
    simp only [hp]
    cases rest with
    | nil =>
      by_cases h0 : a = c0
      · simp [h0]
      · simp [h0, ite_self]
    | cons c1 rest' =>
      cases t with
      | nil =>
        by_cases h0 : a = c0
        · simp [h0]
        · simp [h0, ite_self]
      | cons b t' =>
        have hlen2 : 2 ≤ (a :: b :: t').length := by
          simp only [List.length_cons]; omega
        by_cases h0 : a = c0
        · by_cases h1 : b = c1
          · simp [h0, h1, hlen2]
          · simp [h0, h1, hlen2]
        · simp [h0, ite_self]

/- ===== Claim C3: get_setting against simulated replies ===== -/

/-- Claim C3 counterexample: when the device's reply line to `VAR B1 10` is
    the bare `5 0`, `get_setting(0, 0x10)` returns `none` (the reply fails
    `send_command`'s echo validation), not 5 as claimed. -/
theorem c3_counterexample : get_setting 0 16 (some "5 0") = none := by decide

/-- Claim C3 (amended): the success reply must echo the issued command, so
    against the reply `VAR B1 5 0` `get_setting(0, 0x10)` returns 5, against
    `VAR B1 5 1` it returns none, and against the unechoed `5 0` or `5 1` of
    the original claim it returns none. -/
theorem c3_get_setting_replies :
    get_setting 0 16 (some "VAR B1 5 0") = some 5 ∧
    get_setting 0 16 (some "VAR B1 5 1") = none ∧
    get_setting 0 16 (some "5 0") = none ∧
    get_setting 0 16 (some "5 1") = none := by decide

/- ===== Claim C6: the version comparator ===== -/

theorem headD_splitChar_not_mem (sep : Char) :
    ∀ cs, sep ∉ (splitChar sep cs).headD [] := by
  intro cs
  induction cs with
  | nil => simp [splitChar]
  | cons c cs ih =>
    simp only [splitChar]
    by_cases h : c = sep
    · simp [h]
    · simp only [if_neg h]
      cases hr : splitChar sep cs with
      | nil => exact absurd hr (splitChar_ne_nil sep cs)
      | cons g gs =>
        rw [hr] at ih
        simp only [List.headD_cons] at ih
        show sep ∉ c :: g
        simp only [List.mem_cons, not_or]
        exact ⟨fun hh => h hh.symm, ih⟩

theorem splitChar_of_not_mem (sep : Char) :
    ∀ cs, sep ∉ cs → splitChar sep cs = [cs] := by
  intro cs
  induction cs with
  | nil => intro _; rfl
  | cons c cs ih =>
    intro hmem
    simp only [List.mem_cons, not_or] at hmem
    simp only [splitChar, ih hmem.2]
    rw [if_neg (fun hh => hmem.1 hh.symm)]

theorem versionComps_mk_preDash (s : String) :
    versionComps (String.mk (preDash s)) = versionComps s := by
  unfold versionComps
  congr 1
  show ((splitChar '-' (preDash s)).headD []) = preDash s
  rw [splitChar_of_not_mem '-' (preDash s) (headD_splitChar_not_mem '-' s.toList)]
  rfl

/-- Claim C6 counterexample: "3.x" contains the non-numeric component "x",
    for which the claim requires the comparator to return `false`, yet
    `version_gte "3.x" "2.0.0"` returns `true`: 3 > 2 decides the
    comparison before the component "x" is ever parsed. -/
theorem c6_counterexample :
    vcomp "3.x" 1 = none ∧ version_gte "3.x" "2.0.0" = true := by decide

/-- Claim C6 (amended): the comparator depends only on the parts before
    the "-" pre-release separator; when the first three components of both
    sides parse numerically (missing components read as 0) it is the
    left-to-right lexicographic greater-or-equal with ties resolving to
    `true`; a non-numeric component yields `false` only when it is reached
    before an earlier component decides — in particular a first-component
    parse failure on either side always yields `false`; moreover
    `version_gte "2.2.0-beta.20" "2.2.0-beta.4"` = true,
    `version_gte "2.1.9" "2.2.0"` = false and
    `version_gte "2.2.0" "2.2.0"` = true. -/
theorem c6_version_comparator (a b : String) :
    (version_gte a b =
      version_gte (String.mk (preDash a)) (String.mk (preDash b))) ∧
    (∀ x0 x1 x2 y0 y1 y2 : Int,
      vcomp a 0 = some x0 → vcomp a 1 = some x1 → vcomp a 2 = some x2 →
      vcomp b 0 = some y0 → vcomp b 1 = some y1 → vcomp b 2 = some y2 →
      version_gte a b = lexGe3 x0 x1 x2 y0 y1 y2) ∧
    (vcomp a 0 = none ∨ vcomp b 0 = none → version_gte a b = false) ∧
    version_gte "2.2.0-beta.20" "2.2.0-beta.4" = true ∧
    version_gte "2.1.9" "2.2.0" = false ∧
    version_gte "2.2.0" "2.2.0" = true := by
  refine ⟨?_, ?_, ?_, by decide, by decide, by decide⟩
  · unfold version_gte
    rw [versionComps_mk_preDash, versionComps_mk_preDash]
  · intro x0 x1 x2 y0 y1 y2 ha0 ha1 ha2 hb0 hb1 hb2
    simp only [vcomp] at ha0 ha1 ha2 hb0 hb1 hb2
    simp only [version_gte, ha0, ha1, ha2, hb0, hb1, hb2, vgStep, lexGe3]
    split_ifs <;> rfl
  · intro h
    simp only [vcomp] at h
    simp only [version_gte]
    rcases h with h | h
    · rw [h]
      cases versionComp (versionComps b) 0 <;> rfl
    · rw [h]
      cases versionComp (versionComps a) 0 <;> rfl

/-- Witness for the amended claim C6, instantiating each hypothesis at
    concrete version strings. -/
theorem c6_version_comparator_witness :
    version_gte "2.10.3" "2.9" = lexGe3 2 10 3 2 9 0 ∧
    version_gte "x.1" "1" = false := by
  constructor
  · exact (c6_version_comparator "2.10.3" "2.9").2.1 2 10 3 2 9 0
      (by decide) (by decide) (by decide) (by decide) (by decide) (by decide)
  · exact (c6_version_comparator "x.1" "1").2.2.1 (Or.inl (by decide))

/- ===== Claims C1 and C2: init and the capability fields ===== -/

/-- Claim C1 counterexample: a run in which both handshake steps fail
    (both reads time out, so both steps yield the empty token sequence)
    still makes `init()` return `True` — the source only returns `False`
    when a transport exception is raised — refuting the claimed `false`
    return. -/
theorem c1_counterexample :
    sendCommandOk "VERSION" [] none = [] ∧
    sendCommandOk "ID" [] none = [] ∧
    init initialState none none = (true, initialState) := by decide

/-- Claim C1 (amended): on a fresh session, every reply-level run of
    `init()` returns `True` (a `False` return arises only from a transport
    exception, not from a failed step); a failed VERSION step leaves
    `version` unset, and an ID step with fewer than three tokens leaves
    company, device, chipset and key_count unset and the layer/profile
    counts at their defaults 3 and 1. -/
theorem c1_init_step_failure (vReply idReply : Option String) :
    (init initialState vReply idReply).1 = true ∧
    (sendCommandOk "VERSION" [] vReply = [] →
      (init initialState vReply idReply).2.version = none) ∧
    ((sendCommandOk "ID" [] idReply).length < 3 →
      (init initialState vReply idReply).2.company = none ∧
      (init initialState vReply idReply).2.device = none ∧
      (init initialState vReply idReply).2.chipset = none ∧
      (init initialState vReply idReply).2.key_count = none ∧
      (init initialState vReply idReply).2.layer_count = 3 ∧
      (init initialState vReply idReply).2.profile_count = 1) := by
  refine ⟨?_, ?_, ?_⟩
  · simp only [init]
    split <;> rfl
  · intro hv
    simp only [init, hv, ne_eq, not_true_eq_false, if_false]
    split
    · simp [versionTruthy, initialState]
    · simp [initialState]
  · intro hid
    have hcond : ¬(sendCommandOk "ID" [] idReply ≠ [] ∧
        3 ≤ (sendCommandOk "ID" [] idReply).length) := by
      rintro ⟨-, h3⟩; omega
    simp only [init, if_neg hcond]
    split <;> simp [initialState]

/-- Witness for the amended claim C1 at the concrete run where both reads
    time out. -/
theorem c1_init_step_failure_witness :
    (init initialState none none).1 = true ∧
    (init initialState none none).2.version = none ∧
    (init initialState none none).2.company = none ∧
    (init initialState none none).2.device = none ∧
    (init initialState none none).2.chipset = none ∧
    (init initialState none none).2.key_count = none ∧
    (init initialState none none).2.layer_count = 3 ∧
    (init initialState none none).2.profile_count = 1 := by
  have h := c1_init_step_failure none none
  have h2 := h.2.2 (by decide)
  exact ⟨h.1, h.2.1 (by decide), h2.1, h2.2.1, h2.2.2.1, h2.2.2.2.1,
    h2.2.2.2.2.1, h2.2.2.2.2.2⟩

/-- Claim C2 counterexample: a run whose VERSION step succeeds and whose ID
    step times out leaves `version` set while `company` (and the other
    ID-derived fields) stay unset — an observable partial mixture, refuting
    the all-or-none invariant over the seven capability fields. -/
theorem c2_counterexample :
    (init initialState (some "VERSION 2.2.0") none).2.version = some "2.2.0" ∧
    (init initialState (some "VERSION 2.2.0") none).2.company = none := by
  decide

/-- Claim C2 (amended): the all-or-none invariant holds for the four
    ID-derived fields (company, device, chipset, key_count): they are unset
    on a fresh session and every run of `init()` either sets all four or
    touches none of them.  It does not extend to `version`: a run whose
    VERSION step succeeds and whose ID step fails leaves `version` set
    with the quadruple unset, observable by later reads. -/
theorem c2_capability_quadruple (st : DeviceState) (vReply idReply : Option String) :
    quadSync initialState ∧
    (quadSync st → quadSync (init st vReply idReply).2) := by
  constructor
  · exact ⟨rfl, rfl, rfl⟩
  · intro h
    simp only [init]
    split
    · simp only [quadSync]
      split_ifs <;> exact ⟨rfl, rfl, rfl⟩
    · split
      · simpa [quadSync] using h
      · exact h

/-- Witness for the amended claim C2 at a concrete partially-updating run. -/
theorem c2_capability_quadruple_witness :
    quadSync (init initialState (some "VERSION 2.2.0") none).2 :=
  (c2_capability_quadruple initialState (some "VERSION 2.2.0") none).2
    ⟨rfl, rfl, rfl⟩

/- ===== Claim C10: read_line never yields a blank line ===== -/

/-- Claim C10: `_read_line` never returns an empty line: a returned line is
    nonempty; a line-feed arriving on an empty-or-whitespace buffer is
    skipped, the read continuing in the same timeout window (same remaining
    fuel, buffer kept); in particular a bare CRLF at the head of the stream
    is invisible, so blank lines on the wire are never seen by
    `send_command` or its callers. -/
theorem c10_read_line_blank_lines :
    (∀ fuel stream buf l, readLineGo fuel stream buf = some l → l ≠ "") ∧
    (∀ rest fuel buf, pyStrip buf = [] →
      readLineGo (fuel + 1) (some '\n' :: rest) buf = readLineGo fuel rest buf) ∧
    (∀ stream fuel,
      readLineGo (fuel + 2) (some '\r' :: some '\n' :: stream) [] =
        readLineGo fuel stream []) := by
  refine ⟨?_, ?_, ?_⟩
  · intro fuel
    induction fuel with
    | zero => intro stream buf l h; simp [readLineGo] at h
    | succ fuel ih =>
      intro stream buf l h
      match stream with
      | [] => simp [readLineGo] at h
      | none :: rest => exact ih rest buf l h
      | some c :: rest =>
        rw [show readLineGo (fuel + 1) (some c :: rest) buf =
            (if c = '\n' then
              if pyStrip buf ≠ [] then some (String.mk (pyStrip buf))
              else readLineGo fuel rest buf
            else if c = '\r' then readLineGo fuel rest buf
            else readLineGo fuel rest (buf ++ [c])) from rfl] at h
        by_cases hn : c = '\n'
        · rw [if_pos hn] at h
          by_cases hs : pyStrip buf = []
          · rw [if_neg (by simp [hs])] at h
            exact ih rest buf l h
          · rw [if_pos hs] at h
            injection h with h'
            subst h'
            intro he
            exact hs (by simpa using congrArg String.data he)
        · rw [if_neg hn] at h
          by_cases hr : c = '\r'
          · rw [if_pos hr] at h
            exact ih rest buf l h
          · rw [if_neg hr] at h
            exact ih rest (buf ++ [c]) l h
  · intro rest fuel buf hbuf
    simp [readLineGo, hbuf]
  · intro stream fuel
    show readLineGo (fuel + 1 + 1) (some '\r' :: some '\n' :: stream) [] = _
    simp [readLineGo, pyStrip]

/-- Witness for claim C10 at concrete streams: a read returning "A" is
    nonempty; a blank LF on a whitespace buffer and a bare CRLF are both
    skipped. -/
theorem c10_read_line_blank_lines_witness :
    ("A" : String) ≠ "" ∧
    readLineGo 1 [some '\n'] [' '] = readLineGo 0 [] [' '] ∧
    readLineGo 2 [some '\r', some '\n'] [] = readLineGo 0 [] [] := by
  refine ⟨c10_read_line_blank_lines.1 2 [some 'A', some '\n'] [] "A" (by decide),
          c10_read_line_blank_lines.2.1 [] 0 [' '] (by decide),
          c10_read_line_blank_lines.2.2 [] 0⟩

/- ===== Claim C4: the "indefinite" wait of query_key ===== -/

theorem readLineGo_replicate_skip :
    ∀ n fuel rest buf,
      readLineGo (n + fuel) (List.replicate n none ++ rest) buf =
        readLineGo fuel rest buf := by
  intro n
  induction n with
  | zero =>
    intro fuel rest buf
    simp only [List.replicate, List.nil_append, Nat.zero_add]
  | succ n ih =>
    intro fuel rest buf
    have harith : n + 1 + fuel = (n + fuel) + 1 := by omega
    rw [harith, List.replicate_succ, List.cons_append]
    show readLineGo (n + fuel) (List.replicate n none ++ rest) buf = _
    exact ih fuel rest buf

theorem readLineGo_replicate_none :
    ∀ n rest buf, readLineGo n (List.replicate n none ++ rest) buf = none := by
  intro n
  induction n with
  | zero => intro rest buf; rfl
  | succ n ih =>
    intro rest buf
    rw [List.replicate_succ, List.cons_append]
    show readLineGo n (List.replicate n none ++ rest) buf = none
    exact ih rest buf

/-- Claim C4 is refuted by the code (code bug): in indefinite-wait mode
    (`timeout=None`) the source still calls `_read_line(10.0)`, so a
    response line arriving 10 seconds after the query is never seen and
    `query_key` returns none by an internal timeout — while the very same
    stream, read with an explicit larger bound, does produce the key code 5.
    This contradicts the source's own comment ("we don't want to timeout")
    and the claimed unbounded wait. -/
theorem c4_query_key_internal_bound :
    query_key none lateLineStream = none ∧
    query_key (some (indefiniteWaitTicks + 11)) lateLineStream = some 5 := by
  constructor
  · have h : read_line lateLineStream indefiniteWaitTicks = none :=
      readLineGo_replicate_none indefiniteWaitTicks
        ("QRY KEY 5\r\n".toList.map some) []
    simp [query_key, h]
  · have hline : read_line lateLineStream (indefiniteWaitTicks + 11) =
        some "QRY KEY 5" := by
      show readLineGo (indefiniteWaitTicks + 11)
        (List.replicate indefiniteWaitTicks none ++
          "QRY KEY 5\r\n".toList.map some) [] = _
      rw [readLineGo_replicate_skip indefiniteWaitTicks 11
        ("QRY KEY 5\r\n".toList.map some) []]
      decide
    have hz : ¬(indefiniteWaitTicks + 11 = 0) := by decide
    simp [query_key, hz, hline]
    decide

/- ===== Claim C8: the greedy phrase decoder ===== -/

theorem tryWindow_eq_spec (cs : List Char) (i w : Nat) (hw : 0 < w) :
    tryWindow cs i w = specWindow (cs.drop i) w := by
  unfold tryWindow specWindow
  by_cases h : i + w ≤ cs.length
  · rw [if_pos h, if_pos (by rw [List.length_drop]; omega)]
  · rw [if_neg h, if_neg (by rw [List.length_drop]; omega)]

theorem specDecodePhrase_drop (cs : List Char) (i : Nat) (hi : i < cs.length) :
    specDecodePhrase (cs.drop i) =
      match specWindow (cs.drop i) 4 with
      | some v => v :: specDecodePhrase (cs.drop (i + 4))
      | none =>
        match specWindow (cs.drop i) 3 with
        | some v => v :: specDecodePhrase (cs.drop (i + 3))
        | none =>
          match specWindow (cs.drop i) 2 with
          | some v => v :: specDecodePhrase (cs.drop (i + 2))
          | none => specDecodePhrase (cs.drop (i + 1)) := by
  have hdrop : cs.drop i = cs[i] :: cs.drop (i + 1) := List.drop_eq_getElem_cons hi
  conv_lhs => rw [hdrop]
  simp only [specDecodePhrase]
  rw [← hdrop]
  have e4 : (cs.drop (i + 1)).drop 3 = cs.drop (i + 4) := by
    rw [List.drop_drop]
  have e3 : (cs.drop (i + 1)).drop 2 = cs.drop (i + 3) := by
    rw [List.drop_drop]
  have e2 : (cs.drop (i + 1)).drop 1 = cs.drop (i + 2) := by
    rw [List.drop_drop]
  rw [e4, e3, e2]

theorem parsePhraseLoop_eq_spec :
    ∀ fuel (cs : List Char) i, cs.length ≤ i + fuel →
      parsePhraseLoop cs fuel i = specDecodePhrase (cs.drop i) := by
  intro fuel
  induction fuel with
  | zero =>
    intro cs i hle
    rw [List.drop_eq_nil_of_le (by omega)]
    simp only [specDecodePhrase]
    rfl
  | succ fuel ih =>
    intro cs i hle
    by_cases hi : i < cs.length
    · rw [specDecodePhrase_drop cs i hi]
      rw [show parsePhraseLoop cs (fuel + 1) i =
          (if i < cs.length then
            match tryWindow cs i 4 with
            | some v => v :: parsePhraseLoop cs fuel (i + 4)
            | none =>
              match tryWindow cs i 3 with
              | some v => v :: parsePhraseLoop cs fuel (i + 3)
              | none =>
                match tryWindow cs i 2 with
                | some v => v :: parsePhraseLoop cs fuel (i + 2)
                | none => parsePhraseLoop cs fuel (i + 1)
          else []) from rfl, if_pos hi]
      rw [tryWindow_eq_spec cs i 4 (by omega), tryWindow_eq_spec cs i 3 (by omega),
        tryWindow_eq_spec cs i 2 (by omega)]
      rw [ih cs (i + 4) (by omega), ih cs (i + 3) (by omega),
        ih cs (i + 2) (by omega), ih cs (i + 1) (by omega)]
    · rw [show parsePhraseLoop cs (fuel + 1) i =
          (if i < cs.length then
            match tryWindow cs i 4 with
            | some v => v :: parsePhraseLoop cs fuel (i + 4)
            | none =>
              match tryWindow cs i 3 with
              | some v => v :: parsePhraseLoop cs fuel (i + 3)
              | none =>
                match tryWindow cs i 2 with
                | some v => v :: parsePhraseLoop cs fuel (i + 2)
                | none => parsePhraseLoop cs fuel (i + 1)
          else []) from rfl, if_neg hi]
      rw [List.drop_eq_nil_of_le (by omega)]
      simp only [specDecodePhrase]

/-- Claim C8: `_parse_phrase` implements exactly the specified greedy
    scan — left to right, at each position accept the first of a 4-, then
    3-, then 2-hex-digit window that parses (advancing by the accepted
    width), advance one character when no window parses — and, being a
    total function, never raises. -/
theorem c8_parse_phrase_greedy (s : String) :
    parse_phrase s = specDecodePhrase s.toList := by
  unfold parse_phrase
  rw [parsePhraseLoop_eq_spec s.toList.length s.toList 0 (by omega),
    List.drop_zero]

/- ===== Hex rendering round trip (for claims C7 and C9) ===== -/

theorem hexDigitChar_facts : ∀ d, d < 16 →
    hexDigitVal (hexDigitChar d) = some d ∧
    isPySpace (hexDigitChar d) = false ∧
    hexDigitChar d ≠ '-' ∧ hexDigitChar d ≠ '+' ∧
    hexDigitChar d ≠ 'x' ∧ hexDigitChar d ≠ 'X' ∧ hexDigitChar d ≠ '_' := by
  decide

theorem natToHexDigits_mem (n : Nat) :
    ∀ c ∈ natToHexDigits n, ∃ d, d < 16 ∧ c = hexDigitChar d := by
  induction n using Nat.strong_induction_on with
  | _ n ih =>
    rw [natToHexDigits_eq]
    by_cases h16 : n < 16
    · rw [if_pos h16]
      intro c hc
      simp only [List.mem_singleton] at hc
      exact ⟨n, h16, hc⟩
    · rw [if_neg h16]
      intro c hc
      rcases List.mem_append.mp hc with h | h
      · exact ih (n / 16) (Nat.div_lt_self (by omega) (by omega)) c h
      · simp only [List.mem_singleton] at h
        exact ⟨n % 16, Nat.mod_lt _ (by omega), h⟩

theorem natToHexDigits_ne_nil (n : Nat) : natToHexDigits n ≠ [] := by
  rw [natToHexDigits_eq]
  split
  · simp
  · simp

theorem dropWhile_eq_self_of_not (p : Char → Bool) :
    ∀ cs : List Char, (∀ c ∈ cs, p c = false) → cs.dropWhile p = cs := by
  intro cs h
  cases cs with
  | nil => rfl
  | cons c t => simp [List.dropWhile_cons, h c (List.mem_cons_self _ _)]

theorem pyStrip_eq_self (cs : List Char) (h : ∀ c ∈ cs, isPySpace c = false) :
    pyStrip cs = cs := by
  unfold pyStrip
  rw [dropWhile_eq_self_of_not _ cs h,
    dropWhile_eq_self_of_not _ cs.reverse
      (fun c hc => h c (List.mem_reverse.mp hc)),
    List.reverse_reverse]

theorem digitsGo_all_some (dv : Char → Option Nat) (base : Nat) :
    ∀ cs acc, (∀ c ∈ cs, (dv c).isSome) →
      digitsGo dv base cs acc true =
        some (cs.foldl (fun a c => a * base + (dv c).getD 0) acc) := by
  intro cs
  induction cs with
  | nil => intro acc _; rfl
  | cons c t ih =>
    intro acc h
    obtain ⟨d, hd⟩ := Option.isSome_iff_exists.mp (h c (List.mem_cons_self _ _))
    simp only [digitsGo, hd]
    rw [ih (acc * base + d) (fun x hx => h x (List.mem_cons_of_mem _ hx))]
    simp [hd]

theorem natToHexDigits_foldl (n : Nat) :
    (natToHexDigits n).foldl (fun a c => a * 16 + (hexDigitVal c).getD 0) 0 = n := by
  induction n using Nat.strong_induction_on with
  | _ n ih =>
    rw [natToHexDigits_eq]
    by_cases h16 : n < 16
    · rw [if_pos h16]
      simp [(hexDigitChar_facts n h16).1]
    · rw [if_neg h16]
      rw [List.foldl_append]
      rw [ih (n / 16) (Nat.div_lt_self (by omega) (by omega))]
      simp only [List.foldl_cons, List.foldl_nil,
        (hexDigitChar_facts (n % 16) (Nat.mod_lt _ (by omega))).1, Option.getD_some]
      omega

theorem pyInt16_natToHexStr (n : Nat) : pyInt16 (natToHexStr n) = some (n : Int) := by
  have hmem := natToHexDigits_mem n
  obtain ⟨c0, t, hct⟩ : ∃ c0 t, natToHexDigits n = c0 :: t := by
    cases h : natToHexDigits n with
    | nil => exact absurd h (natToHexDigits_ne_nil n)
    | cons a b => exact ⟨a, b, rfl⟩
  obtain ⟨d0, hd0, hc0⟩ := hmem c0 (by rw [hct]; exact List.mem_cons_self _ _)
  have hfacts0 := hexDigitChar_facts d0 hd0
  have hnosp : ∀ c ∈ natToHexDigits n, isPySpace c = false := by
    intro c hc
    obtain ⟨d, hd, rfl⟩ := hmem c hc
    exact (hexDigitChar_facts d hd).2.1
  have hstrip : pyStrip (natToHexDigits n) = natToHexDigits n :=
    pyStrip_eq_self _ hnosp
  have halldig : ∀ c ∈ natToHexDigits n, (hexDigitVal c).isSome := by
    intro c hc
    obtain ⟨d, hd, rfl⟩ := hmem c hc
    rw [(hexDigitChar_facts d hd).1]
    rfl
  subst hc0
  have hne1 : (hexDigitChar d0 == '-') = false :=
    beq_eq_false_iff_ne.mpr hfacts0.2.2.1
  have hne2 : (hexDigitChar d0 == '+') = false :=
    beq_eq_false_iff_ne.mpr hfacts0.2.2.2.1
  have hne0x : (t.headD ' ' == 'x' || t.headD ' ' == 'X') = false := by
    cases t with
    | nil => decide
    | cons a t' =>
      obtain ⟨d, hd, rfl⟩ := hmem a
        (by rw [hct]; exact List.mem_cons_of_mem _ (List.mem_cons_self _ _))
      have hf := hexDigitChar_facts d hd
      simp only [List.headD_cons]
      rw [Bool.or_eq_false_iff]
      exact ⟨beq_eq_false_iff_ne.mpr hf.2.2.2.2.1,
        beq_eq_false_iff_ne.mpr hf.2.2.2.2.2.1⟩
  show pyIntCore hexDigitVal 16 true (natToHexDigits n) = some (n : Int)
  simp only [pyIntCore]
  rw [hstrip, hct]
  simp only [List.headD_cons, List.tail_cons, hne1, hne2, hne0x, Bool.or_self,
    Bool.and_false, Bool.false_eq_true, if_false]
  have hstep : digitsGo hexDigitVal 16 (hexDigitChar d0 :: t) 0 false =
      digitsGo hexDigitVal 16 t (0 * 16 + d0) true := by
    simp only [digitsGo, hfacts0.1]
  rw [hstep, digitsGo_all_some hexDigitVal 16 t (0 * 16 + d0)
    (fun c hc => halldig c (by rw [hct]; exact List.mem_cons_of_mem _ hc))]
  have hval : t.foldl (fun a c => a * 16 + (hexDigitVal c).getD 0) (0 * 16 + d0) = n := by
    have hf := natToHexDigits_foldl n
    rw [hct] at hf
    simpa [hfacts0.1] using hf
  rw [hval]
  rfl

/- ===== The 12-field extraction (claims C7 and C9) ===== -/

theorem chordField_natCast (n : Nat) (i : Nat) :
    chordField (n : Int) i = ((n / 2 ^ (i * 10) % 1024 : Nat) : Int) := by
  unfold chordField
  have h2 : ((2 : Int) ^ (i * 10)) = ((2 ^ (i * 10) : Nat) : Int) := by
    push_cast
    ring
  rw [h2, ← Int.ofNat_fdiv]
  norm_cast

theorem fields_valLSB : ∀ k (r : List Nat), r.length ≤ k →
    (∀ b ∈ r, 0 < b ∧ b < 1024) →
    (List.range k).map (fun i => valLSB r / 2 ^ (i * 10) % 1024) =
      r ++ List.replicate (k - r.length) 0 := by
  intro k
  induction k with
  | zero =>
    intro r hlen _
    have hr : r = [] := List.length_eq_zero.mp (by omega)
    subst hr
    rfl
  | succ k ih =>
    intro r hlen hb
    cases r with
    | nil =>
      simp only [List.nil_append, List.length_nil, Nat.sub_zero]
      rw [List.eq_replicate_iff]
      refine ⟨by simp, ?_⟩
      intro b hb'
      simp only [List.mem_map, List.mem_range] at hb'
      obtain ⟨i, _, rfl⟩ := hb'
      show valLSB [] / 2 ^ (i * 10) % 1024 = 0
      simp [valLSB]
    | cons b bs =>
      have hbb := hb b (List.mem_cons_self _ _)
      have hv : valLSB (b :: bs) = b + 1024 * valLSB bs := rfl
      rw [List.range_succ_eq_map, List.map_cons, List.map_map]
      have hhead : valLSB (b :: bs) / 2 ^ (0 * 10) % 1024 = b := by
        rw [hv]
        simp only [Nat.zero_mul, pow_zero, Nat.div_one]
        rw [Nat.add_mul_mod_self_left]
        exact Nat.mod_eq_of_lt hbb.2
      have hdiv1024 : (b + 1024 * valLSB bs) / 1024 = valLSB bs := by
        rw [Nat.add_mul_div_left _ _ (by norm_num : (0:Nat) < 1024),
          Nat.div_eq_of_lt hbb.2]
        omega
      have htail : (List.range k).map
          ((fun i => valLSB (b :: bs) / 2 ^ (i * 10) % 1024) ∘ Nat.succ) =
          (List.range k).map (fun i => valLSB bs / 2 ^ (i * 10) % 1024) := by
        apply List.map_congr_left
        intro i _
        show valLSB (b :: bs) / 2 ^ ((i + 1) * 10) % 1024 = _
        rw [hv]
        have hpow : 2 ^ ((i + 1) * 10) = 1024 * 2 ^ (i * 10) := by
          rw [show (i + 1) * 10 = 10 + i * 10 from by ring, pow_add]
          norm_num
        rw [hpow, ← Nat.div_div_eq_div_mul, hdiv1024]
      rw [hhead, htail,
        ih bs (by simp only [List.length_cons] at hlen; omega)
          (fun x hx => hb x (List.mem_cons_of_mem _ hx))]
      rw [List.cons_append, List.length_cons, Nat.succ_sub_succ]

/- ===== Claim C7: encode-then-decode round trip ===== -/

/-- Claim C7: for every list of at most 12 action codes, each in [1, 1023],
    packing with the symmetric reference encoder (10-bit fields, reverse
    program order from the least significant bits, rendered as uppercase
    hex) and then applying `_parse_chord_actions` returns the original
    list unchanged. -/
theorem c7_encode_decode_roundtrip (l : List Nat) (hlen : l.length ≤ 12)
    (hmem : ∀ a ∈ l, 1 ≤ a ∧ a ≤ 1023) :
    parse_chord_actions (encode_actions l) =
      l.map (fun (a : Nat) => (a : Int)) := by
  unfold encode_actions parse_chord_actions
  rw [pyInt16_natToHexStr]
  show ((((List.range 12).map fun i => chordField ((packActionsN l : Nat) : Int) i).filter
      (fun a => a ≠ 0)).reverse = _)
  have hfields : (List.range 12).map
        (fun i => chordField ((packActionsN l : Nat) : Int) i) =
      (l.reverse.map (fun (a : Nat) => (a : Int))) ++
        List.replicate (12 - l.length) 0 := by
    have hN := fields_valLSB 12 l.reverse (by simpa using hlen)
      (fun x hx => by
        have := hmem x (List.mem_reverse.mp hx)
        exact ⟨by omega, by omega⟩)
    calc (List.range 12).map (fun i => chordField ((packActionsN l : Nat) : Int) i)
        = (List.range 12).map
            (fun i => ((valLSB l.reverse / 2 ^ (i * 10) % 1024 : Nat) : Int)) := by
          apply List.map_congr_left
          intro i _
          exact chordField_natCast _ i
      _ = ((List.range 12).map
            (fun i => valLSB l.reverse / 2 ^ (i * 10) % 1024)).map
            (fun (m : Nat) => (m : Int)) := by
          rw [List.map_map]
          rfl
      _ = (l.reverse ++ List.replicate (12 - l.reverse.length) 0).map
            (fun (m : Nat) => (m : Int)) := by rw [hN]
      _ = (l.reverse.map (fun (a : Nat) => (a : Int))) ++
            List.replicate (12 - l.length) 0 := by
          simp [List.map_append, List.map_replicate, List.length_reverse]
  rw [hfields, List.filter_append]
  have hrep : (List.replicate (12 - l.length) (0 : Int)).filter
      (fun a => a ≠ 0) = [] := by
    apply List.filter_eq_nil_iff.mpr
    intro a ha
    have := List.eq_of_mem_replicate ha
    subst this
    simp
  have hkeep : (l.reverse.map (fun (a : Nat) => (a : Int))).filter
      (fun a => a ≠ 0) = l.reverse.map (fun (a : Nat) => (a : Int)) := by
    apply List.filter_eq_self.mpr
    intro a ha
    simp only [List.mem_map] at ha
    obtain ⟨x, hx, rfl⟩ := ha
    have := hmem x (List.mem_reverse.mp hx)
    simp only [ne_eq, decide_eq_true_eq, Nat.cast_eq_zero]
    omega
  rw [hrep, hkeep, List.append_nil, List.map_reverse, List.reverse_reverse]

/-- Witness for claim C7 at the concrete action list [1, 1023, 512]. -/
theorem c7_encode_decode_roundtrip_witness :
    parse_chord_actions (encode_actions [1, 1023, 512]) =
      [1, 1023, 512].map (fun (a : Nat) => (a : Int)) :=
  c7_encode_decode_roundtrip [1, 1023, 512] (by decide) (by decide)

/- ===== Claim C9: decode_actions on arbitrary strings ===== -/

/-- Claim C9 counterexample: "-1" is not an unsigned hex numeral (the
    claim's parse step), so the claim demands the empty sequence; but
    Python's `int(s, 16)` accepts a sign, the word parses to -1, whose
    arithmetic right shifts sign-extend, so every 10-bit field is 1023 and
    `_parse_chord_actions "-1"` returns twelve 1023 codes. -/
theorem c9_counterexample :
    specUnsignedHex "-1" = none ∧
    parse_chord_actions "-1" = List.replicate 12 1023 := by decide

/-- Claim C9 (amended): `decode_actions` parses its input with Python
    `int(s, 16)` semantics (optional surrounding whitespace, optional sign
    and "0x" mark — not merely an unsigned numeral), extracts twelve 10-bit
    fields starting from the least-significant bits (by arithmetic shift,
    so a negative value sign-extends into 1023-fields), keeps the nonzero
    fields as action codes and reverses them into program order;
    `decode_actions "0"` and any non-parsing string yield the empty
    sequence, and decoding is total (never raises). -/
theorem c9_decode_actions (s : String) (n : Nat) :
    parse_chord_actions "0" = [] ∧
    (pyInt16 s = none → parse_chord_actions s = []) ∧
    parse_chord_actions (natToHexStr n) =
      (((List.range 12).map
        (fun i => ((n / 2 ^ (i * 10) % 1024 : Nat) : Int))).filter
        (fun a => a ≠ 0)).reverse ∧
    parse_chord_actions "-1" = List.replicate 12 1023 := by
  refine ⟨by decide, ?_, ?_, by decide⟩
  · intro h
    unfold parse_chord_actions
    rw [h]
  · unfold parse_chord_actions
    rw [pyInt16_natToHexStr]
    show ((((List.range 12).map fun i => chordField (n : Int) i).filter
        (fun a => a ≠ 0)).reverse = _)
    congr 1
    congr 1
    apply List.map_congr_left
    intro i _
    exact chordField_natCast n i

/-- Witness for the amended claim C9 at a non-parsing string and at the
    concrete word 1025 = 0x401 (fields 1 and 1). -/
theorem c9_decode_actions_witness :
    parse_chord_actions "zz" = [] ∧
    parse_chord_actions (natToHexStr 1025) =
      (((List.range 12).map
        (fun i => ((1025 / 2 ^ (i * 10) % 1024 : Nat) : Int))).filter
        (fun a => a ≠ 0)).reverse := by
  have h := c9_decode_actions "zz" 1025
  exact ⟨h.2.1 (by decide), h.2.2.1⟩

